import Mathlib

/-!
Shallow embedding of `camera_controller.py` (ball-tracking PTZ camera
controller) and verification of its specification claims.

Python floats and exact decimal literals are modelled as rationals (ℚ);
Python ints as ℤ.  `math.sqrt` is not exactly representable on ℚ, so the
local variable `distance` of `calculate_zoom` (line 81 of the source,
`distance = math.sqrt(x*x + y*y)`) is passed as an explicit argument,
constrained in the theorems by `0 ≤ dist ∧ dist * dist = x * x + y * y`,
which characterises `sqrt (x*x + y*y)` uniquely.
-/

namespace CameraController

/-- The Python `int()` conversion applied to a number: truncation toward
zero.  `int(q)` is `⌊q⌋` for nonnegative `q` and `⌈q⌉` for negative `q`. -/
def truncToInt (q : ℚ) : ℤ := if 0 ≤ q then ⌊q⌋ else ⌈q⌉

/-- The `CameraConfig` dataclass (source lines 11-24), with its default field
values. -/
structure CameraConfig where
  field_width : ℚ := 6000
  field_height : ℚ := 4000
  pan_scale : ℚ := 1
  tilt_scale : ℚ := 1
  min_zoom : ℤ := 0
  max_zoom : ℤ := 100
  min_distance : ℚ := 1000
  max_distance : ℚ := 5000
deriving DecidableEq, Repr

/-- The configuration `CameraConfig()` with all defaults, as constructed in `main`. -/
def defaultConfig : CameraConfig := {}

/-- Embedding of `calculate_camera_angles` (source lines 67-77): normalize the position
by the field half-extents, scale to the camera pan/tilt travel, clamp. -/
def calculate_camera_angles (c : CameraConfig) (x y : ℚ) : ℚ × ℚ :=
  let rel_x := x / (c.field_width / 2)
  let rel_y := y / (c.field_height / 2)
  let pan_angle := rel_x * 129 * c.pan_scale
  let tilt_angle := rel_y * 59 * c.tilt_scale
  (max (-129) (min 129 pan_angle), max (-59) (min 59 tilt_angle))

/-- Embedding of `calculate_zoom` (source lines 79-93), with the local `distance`
(`math.sqrt(x*x + y*y)`, line 81) passed as an argument. -/
def calculate_zoom (c : CameraConfig) (distance : ℚ) : ℤ :=
  if distance ≤ c.min_distance then c.max_zoom
  else if c.max_distance ≤ distance then c.min_zoom
  else
    let zoom_range : ℤ := c.max_zoom - c.min_zoom
    let distance_range : ℚ := c.max_distance - c.min_distance
    let zoom : ℚ := (c.max_zoom : ℚ) -
      (zoom_range : ℚ) * (distance - c.min_distance) / distance_range
    truncToInt (max (c.min_zoom : ℚ) (min (c.max_zoom : ℚ) zoom))

/-- The OSC messages the controller can emit to the camera
(`osc_client.send_message` calls in the source). -/
inductive OscMsg where
  | gimbal (mode pan tilt : ℤ)
  | zoomTo (z : ℤ)
  | disconnected
deriving DecidableEq, Repr

/-- Embedding of `move_camera` (source lines 95-99): sends the gimbal-degree message with
`int(pan)`, `int(tilt)` and the zoom message with `zoom` unmodified. -/
def move_camera (pan tilt : ℚ) (zoom : ℤ) : List OscMsg :=
  [OscMsg.gimbal 90 (truncToInt pan) (truncToInt tilt), OscMsg.zoomTo zoom]

/-- The confidence gate of the tracking loop (source line 154,
`if confidence > 0.5`). -/
def should_track (confidence : ℚ) : Bool := confidence > 1/2

/-- One iteration of the `run` loop body (source lines 150-158): `ball_pos`
is the result of `receive_ssl_frame` (`None`, or `(x, y, confidence)`), and
`dist` stands for `math.sqrt(x*x + y*y)` as computed inside
`calculate_zoom`.  Returns the arguments of the `move_camera` call this
tick, or `none` when no command is dispatched. -/
def tick (c : CameraConfig) (ball_pos : Option (ℚ × ℚ × ℚ)) (dist : ℚ) :
    Option (ℚ × ℚ × ℤ) :=
  match ball_pos with
  | none => none
  | some (x, y, confidence) =>
    if should_track confidence then
      let pt := calculate_camera_angles c x y
      some (pt.1, pt.2, calculate_zoom c dist)
    else none

/-- The OSC messages emitted during one tick: the `move_camera` messages on
an accepted detection, nothing otherwise. -/
def tickMsgs (c : CameraConfig) (ball_pos : Option (ℚ × ℚ × ℚ)) (dist : ℚ) :
    List OscMsg :=
  match tick c ball_pos dist with
  | none => []
  | some (pan, tilt, zoom) => move_camera pan tilt zoom

/-- External events driving the `run` loop (source lines 146-162): each
iteration either obtains a frame result (`receive_ssl_frame` returns a ball
position or `None`; transport errors are caught inside it, lines 63-65, and
surface as `None`) or is cut short by the operator `KeyboardInterrupt`. -/
inductive TickEvent where
  | frame (ball_pos : Option (ℚ × ℚ × ℚ)) (dist : ℚ)
  | interrupt
deriving Repr

/-- The `run` loop (source lines 146-162) over a finite trace of external
events: frames are processed one per tick forever; the first interrupt ends
the loop, which then sends exactly the `Disconnected` message (line 162).  A
trace with no interrupt yields the messages of a still-running loop. -/
def runLoop (c : CameraConfig) : List TickEvent → List OscMsg
  | [] => []
  | TickEvent.interrupt :: _ => [OscMsg.disconnected]
  | TickEvent.frame b d :: rest => tickMsgs c b d ++ runLoop c rest

/-- One iteration of `calibration_mode` (source lines 125-144) on an input
line (already lowercased by `input("> ").lower()`, line 126).  Returns the
updated configuration, whether the loop exits (`break` on `exit`), and
whether the `Unknown command` error was reported.  The Python float
literals 1.1 and 0.9 are modelled as the exact decimals 11/10 and 9/10. -/
def calibration_step (c : CameraConfig) (cmd : String) :
    CameraConfig × Bool × Bool :=
  if cmd = "pan+" then ({ c with pan_scale := c.pan_scale * (11/10) }, false, false)
  else if cmd = "pan-" then ({ c with pan_scale := c.pan_scale * (9/10) }, false, false)
  else if cmd = "tilt+" then ({ c with tilt_scale := c.tilt_scale * (11/10) }, false, false)
  else if cmd = "tilt-" then ({ c with tilt_scale := c.tilt_scale * (9/10) }, false, false)
  else if cmd = "save" then (c, false, false)
  else if cmd = "exit" then (c, true, false)
  else (c, false, true)

/-- The keys of the persisted flat key-value record: the attribute names of
`CameraConfig` (the keys of `vars(self.config)` written by
`save_calibration`, source line 104). -/
inductive ConfigKey where
  | field_width | field_height | pan_scale | tilt_scale
  | min_zoom | max_zoom | min_distance | max_distance
deriving DecidableEq, Repr

/-- One key-value pair of the persisted record, carrying the value of the
named `CameraConfig` attribute. -/
inductive ConfigEntry where
  | field_width (v : ℚ)
  | field_height (v : ℚ)
  | pan_scale (v : ℚ)
  | tilt_scale (v : ℚ)
  | min_zoom (v : ℤ)
  | max_zoom (v : ℤ)
  | min_distance (v : ℚ)
  | max_distance (v : ℚ)
deriving DecidableEq, Repr

/-- The key of a record entry. -/
def keyOf : ConfigEntry → ConfigKey
  | .field_width _ => .field_width
  | .field_height _ => .field_height
  | .pan_scale _ => .pan_scale
  | .tilt_scale _ => .tilt_scale
  | .min_zoom _ => .min_zoom
  | .max_zoom _ => .max_zoom
  | .min_distance _ => .min_distance
  | .max_distance _ => .max_distance

/-- One `setattr(self.config, key, value)` application for one record entry (source
line 112). -/
def setEntry (c : CameraConfig) : ConfigEntry → CameraConfig
  | .field_width v => { c with field_width := v }
  | .field_height v => { c with field_height := v }
  | .pan_scale v => { c with pan_scale := v }
  | .tilt_scale v => { c with tilt_scale := v }
  | .min_zoom v => { c with min_zoom := v }
  | .max_zoom v => { c with max_zoom := v }
  | .min_distance v => { c with min_distance := v }
  | .max_distance v => { c with max_distance := v }

/-- Read one attribute of a configuration by key (integer attributes cast
to ℚ, for uniform field-by-field comparison). -/
def readKey (c : CameraConfig) : ConfigKey → ℚ
  | .field_width => c.field_width
  | .field_height => c.field_height
  | .pan_scale => c.pan_scale
  | .tilt_scale => c.tilt_scale
  | .min_zoom => (c.min_zoom : ℚ)
  | .max_zoom => (c.max_zoom : ℚ)
  | .min_distance => c.min_distance
  | .max_distance => c.max_distance

/-- Embedding of `save_calibration` (source lines 101-104): `json.dump(vars(self.config))`
writes the flat record of all eight attributes with their current values. -/
def save_calibration (c : CameraConfig) : List ConfigEntry :=
  [.field_width c.field_width, .field_height c.field_height,
   .pan_scale c.pan_scale, .tilt_scale c.tilt_scale,
   .min_zoom c.min_zoom, .max_zoom c.max_zoom,
   .min_distance c.min_distance, .max_distance c.max_distance]

/-- Embedding of `load_calibration` (source lines 106-114): `file` is the parsed content
of the calibration file, or `none` when the file does not exist.  On
`FileNotFoundError` a message is printed (second component `true`) and the
existing configuration is kept; otherwise each key-value pair of the record
is set onto the existing configuration with `setattr`, one field at a
time. -/
def load_calibration (c : CameraConfig) (file : Option (List ConfigEntry)) :
    CameraConfig × Bool :=
  match file with
  | none => (c, true)
  | some entries => (entries.foldl setEntry c, false)

end CameraController

namespace CameraController

/-- Helper: `truncToInt` is monotone. -/
theorem truncToInt_mono {a b : ℚ} (h : a ≤ b) : truncToInt a ≤ truncToInt b := by
  unfold truncToInt
  split_ifs with h1 h2 h2
  · exact Int.floor_le_floor h
  · exact absurd (le_trans h1 h) h2
  · calc ⌈a⌉ ≤ ⌈(0:ℚ)⌉ := Int.ceil_le_ceil (le_of_not_le h1)
      _ = 0 := by norm_num
      _ ≤ ⌊b⌋ := Int.floor_nonneg.mpr h2
  · exact Int.ceil_le_ceil h

/-- Helper: `truncToInt` is the identity on integers. -/
theorem truncToInt_intCast (n : ℤ) : truncToInt (n : ℚ) = n := by
  unfold truncToInt
  split_ifs <;> simp

/-- Helper: truncation toward zero commutes with clamping to an integer
interval. -/
theorem truncToInt_clamp (a b : ℤ) (q : ℚ) (hab : a ≤ b) :
    truncToInt (max (a:ℚ) (min (b:ℚ) q)) = max a (min b (truncToInt q)) := by
  have habQ : (a:ℚ) ≤ (b:ℚ) := by exact_mod_cast hab
  rcases le_total q a with hqa | haq
  · have h3 : truncToInt q ≤ a := by
      calc truncToInt q ≤ truncToInt (a:ℚ) := truncToInt_mono hqa
        _ = a := truncToInt_intCast a
    rw [min_eq_right (le_trans hqa habQ), max_eq_left hqa, truncToInt_intCast,
      min_eq_right (le_trans h3 hab), max_eq_left h3]
  · rcases le_total q b with hqb | hbq
    · have h3 : a ≤ truncToInt q := by
        calc a = truncToInt (a:ℚ) := (truncToInt_intCast a).symm
          _ ≤ truncToInt q := truncToInt_mono haq
      have h4 : truncToInt q ≤ b := by
        calc truncToInt q ≤ truncToInt (b:ℚ) := truncToInt_mono hqb
          _ = b := truncToInt_intCast b
      rw [min_eq_right hqb, max_eq_right haq, min_eq_right h4, max_eq_right h3]
    · have h4 : b ≤ truncToInt q := by
        calc b = truncToInt (b:ℚ) := (truncToInt_intCast b).symm
          _ ≤ truncToInt q := truncToInt_mono hbq
      rw [min_eq_left hbq, max_eq_right habQ, truncToInt_intCast,
        min_eq_left h4, max_eq_right hab]

/-- C1: for every position and configuration (field extents positive, as the
data model requires), `calculate_camera_angles` returns exactly the clamped
scaled normalized coordinates, and the returned pan always lies in
[-129, 129] and the returned tilt in [-59, 59]; the function is total, so no
error is raised for out-of-range input. -/
theorem calculate_camera_angles_spec (c : CameraConfig) (x y : ℚ)
    (hw : 0 < c.field_width) (hh : 0 < c.field_height) :
    calculate_camera_angles c x y =
      (max (-129) (min 129 (x / (c.field_width / 2) * 129 * c.pan_scale)),
       max (-59) (min 59 (y / (c.field_height / 2) * 59 * c.tilt_scale))) ∧
    -129 ≤ (calculate_camera_angles c x y).1 ∧
    (calculate_camera_angles c x y).1 ≤ 129 ∧
    -59 ≤ (calculate_camera_angles c x y).2 ∧
    (calculate_camera_angles c x y).2 ≤ 59 := by
  refine ⟨rfl, le_max_left _ _, ?_, le_max_left _ _, ?_⟩
  · exact max_le (by norm_num) (min_le_left _ _)
  · exact max_le (by norm_num) (min_le_left _ _)

/-- Witness for C1 at the default configuration and position (9000, -5000):
input beyond the field bounds, clamped to the travel limits. -/
theorem calculate_camera_angles_spec_witness :
    (0:ℚ) < defaultConfig.field_width ∧ (0:ℚ) < defaultConfig.field_height ∧
    (calculate_camera_angles defaultConfig 9000 (-5000) =
      (max (-129) (min 129 ((9000:ℚ) / (defaultConfig.field_width / 2) * 129 * defaultConfig.pan_scale)),
       max (-59) (min 59 ((-5000:ℚ) / (defaultConfig.field_height / 2) * 59 * defaultConfig.tilt_scale))) ∧
     -129 ≤ (calculate_camera_angles defaultConfig 9000 (-5000)).1 ∧
     (calculate_camera_angles defaultConfig 9000 (-5000)).1 ≤ 129 ∧
     -59 ≤ (calculate_camera_angles defaultConfig 9000 (-5000)).2 ∧
     (calculate_camera_angles defaultConfig 9000 (-5000)).2 ≤ 59) :=
  ⟨by norm_num [defaultConfig], by norm_num [defaultConfig],
   calculate_camera_angles_spec defaultConfig 9000 (-5000)
     (by norm_num [defaultConfig]) (by norm_num [defaultConfig])⟩

/-- C3: the confidence gate of the tracking loop is a strict threshold: a
detection present this tick is acted upon (a command is dispatched) iff its
confidence is strictly greater than 0.5; confidence exactly 0.5 and 0.0 are
not tracked, confidence 1.0 is tracked. -/
theorem should_track_spec :
    (∀ (c : CameraConfig) (x y conf dist : ℚ),
      (tick c (some (x, y, conf)) dist).isSome = should_track conf) ∧
    (∀ conf : ℚ, should_track conf = true ↔ conf > 1/2) ∧
    should_track (1/2) = false ∧
    should_track 0 = false ∧
    should_track 1 = true := by
  refine ⟨?_, ?_, ?_, ?_, ?_⟩
  · intro c x y conf dist
    simp only [tick]
    by_cases h : should_track conf <;> simp [h]
  · intro conf; simp [should_track]
  · simp [should_track]
  · norm_num [should_track]
  · norm_num [should_track]

/-- C2: for every position `(x, y)` and every configuration with
`min_distance < max_distance` (and `min_zoom ≤ max_zoom`, as the data model
requires), `calculate_zoom` at `distance = sqrt(x*x + y*y)` returns
`max_zoom` when `distance ≤ min_distance`, `min_zoom` when
`distance ≥ max_distance`, and otherwise the linear interpolation truncated
toward zero then clamped to `[min_zoom, max_zoom]`; the result always lies
in `[min_zoom, max_zoom]`. -/
theorem calculate_zoom_spec (c : CameraConfig) (x y dist : ℚ)
    (hz : c.min_zoom ≤ c.max_zoom) (hd : c.min_distance < c.max_distance)
    (hd0 : 0 ≤ dist) (hdsq : dist * dist = x * x + y * y) :
    (dist ≤ c.min_distance → calculate_zoom c dist = c.max_zoom) ∧
    (c.max_distance ≤ dist → calculate_zoom c dist = c.min_zoom) ∧
    (c.min_distance < dist → dist < c.max_distance →
      calculate_zoom c dist =
        max c.min_zoom (min c.max_zoom (truncToInt ((c.max_zoom : ℚ) -
          ((c.max_zoom : ℚ) - (c.min_zoom : ℚ)) * (dist - c.min_distance) /
            (c.max_distance - c.min_distance))))) ∧
    c.min_zoom ≤ calculate_zoom c dist ∧ calculate_zoom c dist ≤ c.max_zoom := by
  have hcast : (((c.max_zoom - c.min_zoom : ℤ) : ℚ)) =
      (c.max_zoom : ℚ) - (c.min_zoom : ℚ) := by push_cast; ring
  refine ⟨?_, ?_, ?_, ?_⟩
  · intro h
    simp [calculate_zoom, h]
  · intro h
    rw [calculate_zoom, if_neg (not_le.mpr (lt_of_lt_of_le hd h)), if_pos h]
  · intro h1 h2
    simp only [calculate_zoom, if_neg (not_le.mpr h1), if_neg (not_le.mpr h2)]
    rw [hcast, truncToInt_clamp _ _ _ hz]
  · simp only [calculate_zoom]
    split_ifs with h1 h2
    · exact ⟨hz, le_refl _⟩
    · exact ⟨le_refl _, hz⟩
    · rw [hcast, truncToInt_clamp _ _ _ hz]
      exact ⟨le_max_left _ _, max_le hz (min_le_left _ _)⟩

/-- Helper: the zoom result never exceeds `max_zoom` (when
`min_zoom ≤ max_zoom`). -/
theorem calculate_zoom_le_max (c : CameraConfig) (hz : c.min_zoom ≤ c.max_zoom)
    (d : ℚ) : calculate_zoom c d ≤ c.max_zoom := by
  have hcast : (((c.max_zoom - c.min_zoom : ℤ) : ℚ)) =
      (c.max_zoom : ℚ) - (c.min_zoom : ℚ) := by push_cast; ring
  simp only [calculate_zoom]
  split_ifs with h1 h2
  · exact le_refl _
  · exact hz
  · rw [hcast, truncToInt_clamp _ _ _ hz]
    exact max_le hz (min_le_left _ _)

/-- Helper: the zoom result is never below `min_zoom` (when
`min_zoom ≤ max_zoom`). -/
theorem min_le_calculate_zoom (c : CameraConfig) (hz : c.min_zoom ≤ c.max_zoom)
    (d : ℚ) : c.min_zoom ≤ calculate_zoom c d := by
  have hcast : (((c.max_zoom - c.min_zoom : ℤ) : ℚ)) =
      (c.max_zoom : ℚ) - (c.min_zoom : ℚ) := by push_cast; ring
  simp only [calculate_zoom]
  split_ifs with h1 h2
  · exact hz
  · exact le_refl _
  · rw [hcast, truncToInt_clamp _ _ _ hz]
    exact le_max_left _ _

/-- Witness for C2 at the default configuration, position (3000, 4000),
distance 5000 (a 3-4-5 triple, so the square-root hypothesis is exact). -/
theorem calculate_zoom_spec_witness :
    defaultConfig.min_zoom ≤ defaultConfig.max_zoom ∧
    defaultConfig.min_distance < defaultConfig.max_distance ∧
    (0:ℚ) ≤ 5000 ∧ (5000 : ℚ) * 5000 = 3000 * 3000 + 4000 * 4000 ∧
    ((5000:ℚ) ≤ defaultConfig.min_distance →
      calculate_zoom defaultConfig 5000 = defaultConfig.max_zoom) ∧
    (defaultConfig.max_distance ≤ (5000:ℚ) →
      calculate_zoom defaultConfig 5000 = defaultConfig.min_zoom) ∧
    (defaultConfig.min_distance < (5000:ℚ) → (5000:ℚ) < defaultConfig.max_distance →
      calculate_zoom defaultConfig 5000 =
        max defaultConfig.min_zoom (min defaultConfig.max_zoom
          (truncToInt ((defaultConfig.max_zoom : ℚ) -
            ((defaultConfig.max_zoom : ℚ) - (defaultConfig.min_zoom : ℚ)) *
              ((5000:ℚ) - defaultConfig.min_distance) /
              (defaultConfig.max_distance - defaultConfig.min_distance))))) ∧
    defaultConfig.min_zoom ≤ calculate_zoom defaultConfig 5000 ∧
    calculate_zoom defaultConfig 5000 ≤ defaultConfig.max_zoom :=
  ⟨by norm_num [defaultConfig], by norm_num [defaultConfig],
   by norm_num, by norm_num,
   calculate_zoom_spec defaultConfig 3000 4000 5000
     (by norm_num [defaultConfig]) (by norm_num [defaultConfig])
     (by norm_num) (by norm_num)⟩

/-- C6: for a fixed valid configuration (`min_zoom ≤ max_zoom`,
`min_distance < max_distance`), `calculate_zoom` is monotonically
non-increasing in the distance `sqrt(x*x + y*y)`: if the distance of the
first position is at most that of the second, the zoom for the first is at least the
zoom for the second. -/
theorem calculate_zoom_antitone (c : CameraConfig)
    (hz : c.min_zoom ≤ c.max_zoom) (hd : c.min_distance < c.max_distance)
    (x1 y1 x2 y2 d1 d2 : ℚ)
    (h10 : 0 ≤ d1) (h1sq : d1 * d1 = x1 * x1 + y1 * y1)
    (h20 : 0 ≤ d2) (h2sq : d2 * d2 = x2 * x2 + y2 * y2)
    (h12 : d1 ≤ d2) :
    calculate_zoom c d2 ≤ calculate_zoom c d1 := by
  have hzQ : (c.min_zoom : ℚ) ≤ (c.max_zoom : ℚ) := by exact_mod_cast hz
  have hR : (0:ℚ) ≤ ((c.max_zoom - c.min_zoom : ℤ) : ℚ) := by
    have h : (0:ℤ) ≤ c.max_zoom - c.min_zoom := sub_nonneg.mpr hz
    exact_mod_cast h
  by_cases q1 : d1 ≤ c.min_distance
  · have e1 : calculate_zoom c d1 = c.max_zoom := by
      rw [calculate_zoom, if_pos q1]
    rw [e1]
    exact calculate_zoom_le_max c hz d2
  · by_cases q2 : c.max_distance ≤ d1
    · have e1 : calculate_zoom c d1 = c.min_zoom := by
        rw [calculate_zoom, if_neg q1, if_pos q2]
      have p1 : ¬ d2 ≤ c.min_distance := fun h => q1 (le_trans h12 h)
      have e2 : calculate_zoom c d2 = c.min_zoom := by
        rw [calculate_zoom, if_neg p1, if_pos (le_trans q2 h12)]
      rw [e1, e2]
    · push_neg at q1 q2
      by_cases p2 : c.max_distance ≤ d2
      · have e2 : calculate_zoom c d2 = c.min_zoom := by
          rw [calculate_zoom, if_neg (not_le.mpr (lt_of_lt_of_le q1 h12)),
            if_pos p2]
        rw [e2]
        exact min_le_calculate_zoom c hz d1
      · have hrange : (0:ℚ) < c.max_distance - c.min_distance := by linarith
        simp only [calculate_zoom, if_neg (not_le.mpr q1),
          if_neg (not_le.mpr (lt_of_lt_of_le q1 h12)), if_neg (not_le.mpr q2),
          if_neg p2]
        apply truncToInt_mono
        apply max_le_max (le_refl _)
        apply min_le_min (le_refl _)
        apply sub_le_sub_left
        rw [div_le_div_iff_of_pos_right hrange]
        exact mul_le_mul_of_nonneg_left (by linarith) hR

/-- Witness for C6 at the default configuration: positions (3000, 4000)
(distance 5000) and (2000, 0) (distance 2000), with 2000 ≤ 5000. -/
theorem calculate_zoom_antitone_witness :
    defaultConfig.min_zoom ≤ defaultConfig.max_zoom ∧
    defaultConfig.min_distance < defaultConfig.max_distance ∧
    (0:ℚ) ≤ 2000 ∧ (2000:ℚ) * 2000 = 2000 * 2000 + 0 * 0 ∧
    (0:ℚ) ≤ 5000 ∧ (5000:ℚ) * 5000 = 3000 * 3000 + 4000 * 4000 ∧
    (2000:ℚ) ≤ 5000 ∧
    calculate_zoom defaultConfig 5000 ≤ calculate_zoom defaultConfig 2000 :=
  ⟨by norm_num [defaultConfig], by norm_num [defaultConfig],
   by norm_num, by norm_num, by norm_num, by norm_num, by norm_num,
   calculate_zoom_antitone defaultConfig
     (by norm_num [defaultConfig]) (by norm_num [defaultConfig])
     2000 0 3000 4000 2000 5000
     (by norm_num) (by norm_num) (by norm_num) (by norm_num) (by norm_num)⟩

/-- C4: per tick of the tracking loop: with no detection, or a detection
whose confidence fails the gate, no camera command is dispatched; otherwise
the loop computes the angles and the zoom from the same raw position (the
zoom from `sqrt(x*x + y*y)` of the raw `(x, y)`, not from the clamped
angles) and dispatches them as one atomic command: the gimbal message and
the zoom message are both issued, never only one of them. -/
theorem tick_spec (c : CameraConfig) :
    (∀ d : ℚ, tickMsgs c none d = []) ∧
    (∀ x y conf d : ℚ, conf ≤ 1/2 → tickMsgs c (some (x, y, conf)) d = []) ∧
    (∀ x y conf d : ℚ, 0 ≤ d → d * d = x * x + y * y → 1/2 < conf →
      tick c (some (x, y, conf)) d = some ((calculate_camera_angles c x y).1,
        (calculate_camera_angles c x y).2, calculate_zoom c d) ∧
      tickMsgs c (some (x, y, conf)) d =
        [OscMsg.gimbal 90 (truncToInt (calculate_camera_angles c x y).1)
          (truncToInt (calculate_camera_angles c x y).2),
         OscMsg.zoomTo (calculate_zoom c d)]) := by
  refine ⟨fun d => rfl, ?_, ?_⟩
  · intro x y conf d h
    have hg : should_track conf = false := by
      simp only [should_track, decide_eq_false_iff_not, not_lt]
      linarith
    simp [tickMsgs, tick, hg]
  · intro x y conf d hd0 hdsq h
    have hg : should_track conf = true := by
      simp only [should_track, decide_eq_true_eq]
      linarith
    constructor
    · simp [tick, hg]
    · simp [tickMsgs, tick, hg, move_camera]

/-- Witness for C4: the accept branch at the default configuration with
detection (3000, 0, confidence 0.9) and distance 3000, and the reject
branch at confidence 0.4. -/
theorem tick_spec_witness :
    tickMsgs defaultConfig none 0 = [] ∧
    ((2/5 : ℚ) ≤ 1/2 ∧ tickMsgs defaultConfig (some (100, 200, 2/5)) 250 = []) ∧
    ((0:ℚ) ≤ 3000 ∧ (3000:ℚ) * 3000 = 3000 * 3000 + 0 * 0 ∧ (1/2 : ℚ) < 9/10 ∧
      tick defaultConfig (some (3000, 0, 9/10)) 3000 =
        some ((calculate_camera_angles defaultConfig 3000 0).1,
          (calculate_camera_angles defaultConfig 3000 0).2,
          calculate_zoom defaultConfig 3000) ∧
      tickMsgs defaultConfig (some (3000, 0, 9/10)) 3000 =
        [OscMsg.gimbal 90 (truncToInt (calculate_camera_angles defaultConfig 3000 0).1)
          (truncToInt (calculate_camera_angles defaultConfig 3000 0).2),
         OscMsg.zoomTo (calculate_zoom defaultConfig 3000)]) :=
  ⟨(tick_spec defaultConfig).1 0,
   ⟨by norm_num, (tick_spec defaultConfig).2.1 100 200 (2/5) 250 (by norm_num)⟩,
   ⟨by norm_num, by norm_num, by norm_num,
    (tick_spec defaultConfig).2.2 3000 0 (9/10) 3000
      (by norm_num) (by norm_num) (by norm_num)⟩⟩

/-- C5: end-to-end with the default configuration, a detection
(x = 3000, y = 0, confidence = 0.9) in one tick yields exactly the command
(pan = 129, tilt = 0, zoom = 50): the tick dispatches those values, and the
OSC messages sent are the gimbal message (90, 129, 0) and zoom 50.  The
distance 3000 satisfies 3000 * 3000 = 3000 * 3000 + 0 * 0, so it is exactly
`sqrt(x*x + y*y)`. -/
theorem end_to_end_default :
    (0:ℚ) ≤ 3000 ∧ (3000:ℚ) * 3000 = 3000 * 3000 + 0 * 0 ∧
    tick defaultConfig (some (3000, 0, 9/10)) 3000 = some (129, 0, 50) ∧
    tickMsgs defaultConfig (some (3000, 0, 9/10)) 3000 =
      [OscMsg.gimbal 90 129 0, OscMsg.zoomTo 50] := by
  refine ⟨by norm_num, by norm_num, ?_, ?_⟩
  · have h1 : calculate_camera_angles defaultConfig 3000 0 = (129, 0) := by
      norm_num [calculate_camera_angles, defaultConfig]
    have h2 : calculate_zoom defaultConfig 3000 = 50 := by
      norm_num [calculate_zoom, defaultConfig, truncToInt]
    simp [tick, should_track, h1, h2]
    norm_num
  · have h1 : calculate_camera_angles defaultConfig 3000 0 = (129, 0) := by
      norm_num [calculate_camera_angles, defaultConfig]
    have h2 : calculate_zoom defaultConfig 3000 = 50 := by
      norm_num [calculate_zoom, defaultConfig, truncToInt]
    simp [tickMsgs, tick, should_track, h1, h2, move_camera, truncToInt]
    norm_num

/-- C10: for every dispatched command, the pan and tilt actually sent in the
gimbal message are the computed angles truncated toward zero (`int(pan)`,
`int(tilt)`), while the zoom is sent unmodified; truncation toward zero
means: for nonnegative input the floor, for negative input the ceiling, the
magnitude never grows, fractional parts (less than one) are discarded, and
integers are unchanged. -/
theorem move_camera_spec :
    (∀ (pan tilt : ℚ) (zoom : ℤ),
      move_camera pan tilt zoom =
        [OscMsg.gimbal 90 (truncToInt pan) (truncToInt tilt),
         OscMsg.zoomTo zoom]) ∧
    (∀ q : ℚ, 0 ≤ q → (truncToInt q : ℚ) ≤ q ∧ q - 1 < (truncToInt q : ℚ)) ∧
    (∀ q : ℚ, q < 0 → q ≤ (truncToInt q : ℚ) ∧ (truncToInt q : ℚ) < q + 1) ∧
    (∀ q : ℚ, |(truncToInt q : ℚ)| ≤ |q|) ∧
    (∀ n : ℤ, truncToInt (n : ℚ) = n) := by
  refine ⟨fun pan tilt zoom => rfl, ?_, ?_, ?_, truncToInt_intCast⟩
  · intro q hq
    rw [truncToInt, if_pos hq]
    exact ⟨Int.floor_le q, Int.sub_one_lt_floor q⟩
  · intro q hq
    rw [truncToInt, if_neg (not_le.mpr hq)]
    exact ⟨Int.le_ceil q, Int.ceil_lt_add_one q⟩
  · intro q
    rcases le_or_lt 0 q with hq | hq
    · rw [truncToInt, if_pos hq, abs_of_nonneg hq,
        abs_of_nonneg (by exact_mod_cast Int.floor_nonneg.mpr hq)]
      exact Int.floor_le q
    · have hc : ⌈q⌉ ≤ 0 := Int.ceil_le.mpr (by push_cast; linarith)
      rw [truncToInt, if_neg (not_le.mpr hq), abs_of_neg hq,
        abs_of_nonpos (by exact_mod_cast hc)]
      exact neg_le_neg (Int.le_ceil q)

/-- Witness for C10 at pan = 7/2, tilt = -7/2, zoom = 42, q = -7/2, n = 5:
the dispatched values are 3 and -3 with zoom 42 unchanged. -/
theorem move_camera_spec_witness :
    move_camera (7/2) (-7/2) 42 =
      [OscMsg.gimbal 90 (truncToInt (7/2)) (truncToInt (-7/2)),
       OscMsg.zoomTo 42] ∧
    ((0:ℚ) ≤ 7/2 ∧ (truncToInt (7/2) : ℚ) ≤ 7/2 ∧
      (7/2 : ℚ) - 1 < (truncToInt (7/2) : ℚ)) ∧
    ((-7/2 : ℚ) < 0 ∧ (-7/2 : ℚ) ≤ (truncToInt (-7/2) : ℚ) ∧
      (truncToInt (-7/2) : ℚ) < -7/2 + 1) ∧
    |(truncToInt (-7/2) : ℚ)| ≤ |(-7/2 : ℚ)| ∧
    truncToInt ((5 : ℤ) : ℚ) = 5 :=
  ⟨move_camera_spec.1 (7/2) (-7/2) 42,
   ⟨by norm_num, move_camera_spec.2.1 (7/2) (by norm_num)⟩,
   ⟨by norm_num, move_camera_spec.2.2.1 (-7/2) (by norm_num)⟩,
   move_camera_spec.2.2.2.1 (-7/2),
   move_camera_spec.2.2.2.2 5⟩

/-- Helper: a tick never emits the disconnect notification. -/
theorem disconnected_not_mem_tickMsgs (c : CameraConfig)
    (b : Option (ℚ × ℚ × ℚ)) (d : ℚ) :
    OscMsg.disconnected ∉ tickMsgs c b d := by
  unfold tickMsgs
  cases h : tick c b d with
  | none => simp
  | some v =>
    obtain ⟨p, t, z⟩ := v
    simp [move_camera]

/-- C7: the tracking loop terminates only on the external stop signal: a
frame event (including an absorbed receive failure, surfaced as no
detection) never ends the loop, which proceeds to the next tick; as long as
no interrupt has occurred no disconnect notification is issued; and when an
interrupt occurs the loop emits exactly one disconnect notification, as its
final message, then returns. -/
theorem run_loop_spec (c : CameraConfig) :
    (∀ (b : Option (ℚ × ℚ × ℚ)) (d : ℚ) (evs : List TickEvent),
      runLoop c (TickEvent.frame b d :: evs) = tickMsgs c b d ++ runLoop c evs) ∧
    (∀ evs : List TickEvent, TickEvent.interrupt ∉ evs →
      OscMsg.disconnected ∉ runLoop c evs) ∧
    (∀ evs : List TickEvent, TickEvent.interrupt ∈ evs →
      ∃ pre : List OscMsg, runLoop c evs = pre ++ [OscMsg.disconnected] ∧
        OscMsg.disconnected ∉ pre) ∧
    (∀ evs : List TickEvent, TickEvent.interrupt ∈ evs →
      (runLoop c evs).count OscMsg.disconnected = 1) := by
  have h2 : ∀ evs : List TickEvent, TickEvent.interrupt ∉ evs →
      OscMsg.disconnected ∉ runLoop c evs := by
    intro evs
    induction evs with
    | nil => intro _ h; simp [runLoop] at h
    | cons e rest ih =>
      intro hni
      cases e with
      | interrupt => exact absurd (List.mem_cons_self _ _) hni
      | frame b d =>
        rw [runLoop]
        intro hmem
        rcases List.mem_append.mp hmem with h | h
        · exact disconnected_not_mem_tickMsgs c b d h
        · exact ih (fun hr => hni (List.mem_cons_of_mem _ hr)) h
  have h3 : ∀ evs : List TickEvent, TickEvent.interrupt ∈ evs →
      ∃ pre : List OscMsg, runLoop c evs = pre ++ [OscMsg.disconnected] ∧
        OscMsg.disconnected ∉ pre := by
    intro evs
    induction evs with
    | nil => intro h; simp at h
    | cons e rest ih =>
      intro hmem
      cases e with
      | interrupt =>
        exact ⟨[], by simp [runLoop], by simp⟩
      | frame b d =>
        have hr : TickEvent.interrupt ∈ rest := by
          rcases List.mem_cons.mp hmem with h | h
          · exact absurd h.symm (by simp)
          · exact h
        obtain ⟨pre, hpre, hnot⟩ := ih hr
        refine ⟨tickMsgs c b d ++ pre, ?_, ?_⟩
        · rw [runLoop, hpre, List.append_assoc]
        · intro hmem2
          rcases List.mem_append.mp hmem2 with h | h
          · exact disconnected_not_mem_tickMsgs c b d h
          · exact hnot h
  refine ⟨fun b d evs => rfl, h2, h3, ?_⟩
  intro evs hmem
  obtain ⟨pre, hpre, hnot⟩ := h3 evs hmem
  rw [hpre, List.count_append, List.count_eq_zero.mpr hnot]
  simp

/-- Witness for C7 on the concrete trace [frame (accepted detection),
frame (no detection), interrupt, frame ...]: the loop emits the tick
messages then exactly one final disconnect; events after the interrupt are
never processed. -/
theorem run_loop_spec_witness :
    runLoop defaultConfig
        [TickEvent.frame (some (3000, 0, 9/10)) 3000, TickEvent.frame none 0,
         TickEvent.interrupt, TickEvent.frame none 0] =
      tickMsgs defaultConfig (some (3000, 0, 9/10)) 3000 ++
        runLoop defaultConfig
          [TickEvent.frame none 0, TickEvent.interrupt, TickEvent.frame none 0] ∧
    OscMsg.disconnected ∉
      runLoop defaultConfig [TickEvent.frame (some (3000, 0, 9/10)) 3000] ∧
    (∃ pre : List OscMsg,
      runLoop defaultConfig
          [TickEvent.frame (some (3000, 0, 9/10)) 3000, TickEvent.frame none 0,
           TickEvent.interrupt, TickEvent.frame none 0] =
        pre ++ [OscMsg.disconnected] ∧ OscMsg.disconnected ∉ pre) ∧
    (runLoop defaultConfig
        [TickEvent.frame (some (3000, 0, 9/10)) 3000, TickEvent.frame none 0,
         TickEvent.interrupt, TickEvent.frame none 0]).count
      OscMsg.disconnected = 1 :=
  ⟨(run_loop_spec defaultConfig).1 (some (3000, 0, 9/10)) 3000 _,
   (run_loop_spec defaultConfig).2.1 _ (by simp),
   (run_loop_spec defaultConfig).2.2.1 _ (by simp),
   (run_loop_spec defaultConfig).2.2.2 _ (by simp)⟩

/-- C8: in calibration mode, `pan+` multiplies the pan scale by 1.1 and
`pan-` by 0.9 (analogously `tilt+`/`tilt-` for the tilt scale), leaving all
other state unchanged; an unrecognized command reports an error and changes
no state; and `pan+` followed by `pan-` yields 0.99 times the original pan
scale, which differs from the original whenever it is nonzero — the pair is
not a round-trip identity. -/
theorem calibration_step_spec (c : CameraConfig) :
    calibration_step c "pan+" =
      ({ c with pan_scale := c.pan_scale * (11/10) }, false, false) ∧
    calibration_step c "pan-" =
      ({ c with pan_scale := c.pan_scale * (9/10) }, false, false) ∧
    calibration_step c "tilt+" =
      ({ c with tilt_scale := c.tilt_scale * (11/10) }, false, false) ∧
    calibration_step c "tilt-" =
      ({ c with tilt_scale := c.tilt_scale * (9/10) }, false, false) ∧
    (∀ cmd : String,
      cmd ∉ (["pan+", "pan-", "tilt+", "tilt-", "save", "exit"] : List String) →
      calibration_step c cmd = (c, false, true)) ∧
    (calibration_step (calibration_step c "pan+").1 "pan-").1.pan_scale =
      (99/100) * c.pan_scale ∧
    (c.pan_scale ≠ 0 →
      (calibration_step (calibration_step c "pan+").1 "pan-").1.pan_scale ≠
        c.pan_scale) := by
  refine ⟨by simp [calibration_step], by simp [calibration_step],
    by simp [calibration_step], by simp [calibration_step], ?_, ?_, ?_⟩
  · intro cmd h
    simp only [List.mem_cons, List.mem_singleton, not_or] at h
    obtain ⟨h1, h2, h3, h4, h5, h6, -⟩ := h
    rw [calibration_step, if_neg h1, if_neg h2, if_neg h3, if_neg h4,
      if_neg h5, if_neg h6]
  · simp [calibration_step]
    ring
  · intro hps
    simp [calibration_step]
    intro heq
    apply hps
    linarith

/-- Witness for C8 at the default configuration with the unrecognized
command `zoom+` and nonzero pan scale. -/
theorem calibration_step_spec_witness :
    calibration_step defaultConfig "pan+" =
      ({ defaultConfig with
          pan_scale := defaultConfig.pan_scale * (11/10) }, false, false) ∧
    ("zoom+" ∉ (["pan+", "pan-", "tilt+", "tilt-", "save", "exit"] : List String) ∧
      calibration_step defaultConfig "zoom+" = (defaultConfig, false, true)) ∧
    (calibration_step (calibration_step defaultConfig "pan+").1 "pan-").1.pan_scale =
      (99/100) * defaultConfig.pan_scale ∧
    (defaultConfig.pan_scale ≠ 0 ∧
      (calibration_step
          (calibration_step defaultConfig "pan+").1 "pan-").1.pan_scale ≠
        defaultConfig.pan_scale) :=
  ⟨(calibration_step_spec defaultConfig).1,
   ⟨by simp, (calibration_step_spec defaultConfig).2.2.2.2.1 "zoom+" (by simp)⟩,
   (calibration_step_spec defaultConfig).2.2.2.2.2.1,
   ⟨by norm_num [defaultConfig],
    (calibration_step_spec defaultConfig).2.2.2.2.2.2
      (by norm_num [defaultConfig])⟩⟩

/-- Helper: setting one record entry leaves every other attribute
unchanged. -/
theorem readKey_setEntry_ne (c : CameraConfig) (e : ConfigEntry)
    (k : ConfigKey) (h : keyOf e ≠ k) :
    readKey (setEntry c e) k = readKey c k := by
  cases e <;> cases k <;> simp_all [keyOf, setEntry, readKey]

/-- Helper: folding a record whose keys avoid `k` leaves attribute `k`
unchanged. -/
theorem readKey_foldl_not_mem (es : List ConfigEntry) (c : CameraConfig)
    (k : ConfigKey) (h : k ∉ es.map keyOf) :
    readKey (es.foldl setEntry c) k = readKey c k := by
  induction es generalizing c with
  | nil => rfl
  | cons e rest ih =>
    simp only [List.map_cons, List.mem_cons, not_or] at h
    rw [List.foldl_cons, ih _ h.2, readKey_setEntry_ne c e k (Ne.symm h.1)]

/-- C9: loading with no persisted file keeps the existing configuration
values and reports the absence; loading a partial record merges it
field-by-field onto the existing configuration, so every attribute absent
from the record keeps its prior value; and saving a configuration then
loading it (over any prior configuration) restores it field-for-field. -/
theorem persistence_spec :
    (∀ c : CameraConfig, load_calibration c none = (c, true)) ∧
    (∀ (c : CameraConfig) (es : List ConfigEntry) (k : ConfigKey),
      k ∉ es.map keyOf →
      readKey (load_calibration c (some es)).1 k = readKey c k) ∧
    (∀ c cPrior : CameraConfig,
      (load_calibration cPrior (some (save_calibration c))).1 = c) := by
  refine ⟨fun c => rfl, ?_, ?_⟩
  · intro c es k h
    exact readKey_foldl_not_mem es c k h
  · intro c cPrior
    simp only [load_calibration, save_calibration, List.foldl_cons,
      List.foldl_nil, setEntry]

/-- Witness for C9: a one-entry record setting only `pan_scale` leaves
`tilt_scale` (and is applied on top of) the default configuration; the
no-file and round-trip parts at concrete configurations. -/
theorem persistence_spec_witness :
    load_calibration defaultConfig none = (defaultConfig, true) ∧
    (ConfigKey.tilt_scale ∉ ([ConfigEntry.pan_scale 2] : List ConfigEntry).map keyOf ∧
      readKey (load_calibration defaultConfig
        (some [ConfigEntry.pan_scale 2])).1 ConfigKey.tilt_scale =
        readKey defaultConfig ConfigKey.tilt_scale) ∧
    (load_calibration defaultConfig
        (some (save_calibration { defaultConfig with max_zoom := 77 }))).1 =
      { defaultConfig with max_zoom := 77 } :=
  ⟨persistence_spec.1 defaultConfig,
   ⟨by simp [keyOf], persistence_spec.2.1 defaultConfig
      [ConfigEntry.pan_scale 2] ConfigKey.tilt_scale (by simp [keyOf])⟩,
   persistence_spec.2.2 { defaultConfig with max_zoom := 77 } defaultConfig⟩

end CameraController
